import Mathlib

/-!
# Perfetto consumer client (`gapis/perfetto/client.go`)

A shallow embedding of `NewClient`, `Client.Query` and `Client.Close`.

Go values are embedded as follows.

* An `error` is an `Option Err`; `none` is the nil error.
* A pointer that may be nil is an `Option`; `none` is the nil pointer.
* A Go multi-value return `(*Client, error)` is a pair of options.
* Effects on the outside world (socket, cleanup, transport) are recorded in a
  trace of events, oldest first.
* What the remote peer does (accept or refuse a request, which frames it
  delivers to a handler) is an explicit script argument of each operation.
* A call either returns, blocks for ever, or panics (`Outcome`).
* A method with a pointer receiver, such as `(*Connection).Invoke`, takes the
  receiver as an `Option`: Go allows the call on a nil pointer, and what it
  does there is part of the method.

The package `gapis/perfetto/client` (`Connect`, `Connection`, `BindSync`,
`QuerySync`) is imported by the file but is not part of it; those definitions
are modelled from the specification and are marked as such.
-/

namespace Perfetto

/-! ## Data model -/

/-- Go error values: the message carried by a non-nil `error`. -/
abbrev Err := String

/-- The socket handed to `NewClient` (`net.Conn`), identified by a number. -/
structure NetConn where
  id : Nat
  deriving DecidableEq, Repr

/-- The release action handed to `NewClient` (`app.Cleanup`). -/
structure Cleanup where
  id : Nat
  deriving DecidableEq, Repr

/-- Descriptor of a remote procedure (`client.Method`), treated as given. -/
structure Method where
  id : Nat
  deriving DecidableEq, Repr

/-- Go `map[string]*client.Method`; a key is looked up with `List.lookup`. -/
abbrev MethodTable := List (String × Method)

/-- One streamed result (`common.TracingServiceState`), treated as given. -/
structure TracingServiceState where
  id : Nat
  deriving DecidableEq, Repr

/-- The request message `ipc.QueryServiceStateRequest`, as its field values. -/
structure QueryServiceStateRequest where
  fields : List Nat
  deriving DecidableEq, Repr

/-- The Go literal `&ipc.QueryServiceStateRequest{}`: no field is set. -/
def QueryServiceStateRequest.empty : QueryServiceStateRequest := ⟨[]⟩

/-- A `context.Context`: `done = some e` when the context ends with error `e`
while a waiter still has no result, `none` when it never ends. -/
structure Context where
  done : Option Err
  deriving DecidableEq, Repr

/-- Modelled from the spec: the session object `client.Connection`, which
holds the socket and the cleanup action whose ownership it took. -/
structure Connection where
  conn : NetConn
  cleanup : Cleanup
  deriving DecidableEq, Repr

/-- An observable call made on an external collaborator. -/
inductive Event where
  /-- The call `client.Connect(ctx, conn, cleanup)`. -/
  | connect (conn : NetConn) (cleanup : Cleanup)
  /-- The call `conn.Close()` on the socket. -/
  | netClose (conn : NetConn)
  /-- The call `cleanup.Invoke(ctx)`. -/
  | cleanupInvoke (cleanup : Cleanup)
  /-- The call `c.Bind(ctx, service, handler)`. -/
  | bind (c : Connection) (service : String)
  /-- The call `bind.Wait(ctx)`. -/
  | bindWait
  /-- The call `c.Invoke(ctx, m, request, handler)`. -/
  | invoke (c : Connection) (m : Method) (request : QueryServiceStateRequest)
  /-- The call `query.Wait(ctx)`. -/
  | queryWait
  /-- The call `c.Close(ctx)` on a `Connection`. -/
  | connectionClose (c : Connection)
  deriving DecidableEq, Repr

/-- The calls made so far, oldest first. -/
abbrev World := List Event

/-- How a call ends. -/
inductive Outcome (α : Type) where
  /-- The call returns the value. -/
  | returns (value : α)
  /-- The call waits for ever. -/
  | blocks
  /-- The call panics on a nil pointer dereference. -/
  | panics
  deriving DecidableEq, Repr

/-- The constant `consumerService`. -/
def consumerService : String := "ConsumerPort"

/-- The constant `queryMethod`. -/
def queryMethod : String := "QueryServiceState"

/-- The struct `Client`: `conn` is a pointer, nil after `Close`. -/
structure Client where
  conn : Option Connection
  methods : MethodTable
  deriving DecidableEq, Repr

/-! ## The collaborators in `gapis/perfetto/client` -/

/-- A frame the transport hands to the handler of an invocation. -/
inductive StreamEvent where
  /-- One response message of the stream. -/
  | message (m : TracingServiceState)
  /-- The end of the stream: success (`none`) or the error attached to it. -/
  | terminus (err : Option Err)
  deriving DecidableEq, Repr

/-- What the peer does during `NewClient`: whether the session opens, whether
the bind request is accepted, and what is delivered to the bind handler, in
order of delivery. -/
structure BindScript where
  connectErr : Option Err
  bindErr : Option Err
  delivered : List (Except Err MethodTable)

/-- What the peer does for one invocation: whether `Invoke` accepts it, and
the frames then handed to the handler before the waiter is released. -/
structure InvokeScript where
  err : Option Err
  events : List StreamEvent

/-- Modelled from the spec: `client.Connect`, "open session over connection".
It succeeds with a `Connection` owning the socket and the cleanup, or fails
with the scripted error; on failure it releases nothing itself. -/
def Connect (_ctx : Context) (conn : NetConn) (cleanup : Cleanup) (peer : BindScript)
    (w : World) : Except Err Connection × World :=
  let w1 := w ++ [Event.connect conn cleanup]
  match peer.connectErr with
  | some e => (Except.error e, w1)
  | none => (Except.ok ⟨conn, cleanup⟩, w1)

/-- Modelled from the spec: `Connection.Close`, "terminates the session and
releases transport resources": it closes the socket and runs the cleanup the
connection owns. The source agrees: the comment of `NewClient` says the client
"invokes the provided cleanup on shutdown", and `Client.Close` does nothing
but call `c.conn.Close(ctx)`. On a nil receiver there is no session left and
nothing is released again: the connection is "closed exactly once" and the
cleanup "must run exactly once". -/
def Connection.Close (_ctx : Context) (c : Option Connection) (w : World) : World :=
  match c with
  | none => w
  | some conn =>
    w ++ [Event.connectionClose conn, Event.netClose conn.conn,
      Event.cleanupInvoke conn.cleanup]

/-- Modelled from the spec: the state of a `BindSync`, the terminal outcome
its handler has recorded, if any. -/
structure BindSync where
  outcome : Option (Except Err MethodTable)

/-- Modelled from the spec: `client.NewBindSync`, "a fresh synchronization
unit with no result yet". -/
def NewBindSync (_ctx : Context) : BindSync := ⟨none⟩

/-- Modelled from the spec: `BindSync.Handler` "records exactly one terminal
outcome"; "a second invocation after the first is ignored". -/
def BindSync.Handler (b : BindSync) (r : Except Err MethodTable) : BindSync :=
  match b.outcome with
  | some _ => b
  | none => ⟨some r⟩

/-- Modelled from the spec: `BindSync.Wait` "blocks until the handler has
recorded an outcome or the context is cancelled, then returns the method table
or propagates the recorded error, or a cancellation error". -/
def BindSync.Wait (b : BindSync) (ctx : Context) : Outcome (Except Err MethodTable) :=
  match b.outcome with
  | some r => Outcome.returns r
  | none =>
    match ctx.done with
    | some e => Outcome.returns (Except.error e)
    | none => Outcome.blocks

/-- Modelled from the spec: `Connection.Bind` sends the bind request; when it
is accepted the result is delivered to `handler`, otherwise nothing is. -/
def Connection.Bind {σ : Type} (_ctx : Context) (c : Connection) (service : String)
    (handler : σ → Except Err MethodTable → σ) (s : σ) (peer : BindScript) (w : World) :
    Option Err × σ × World :=
  let w1 := w ++ [Event.bind c service]
  match peer.bindErr with
  | some e => (some e, s, w1)
  | none => (none, peer.delivered.foldl handler s, w1)

/-- A per-message callback `func(*common.TracingServiceState) error`. A Go
closure may carry state; its answer is a function of the messages it was
called with before (oldest first) and of the current message. -/
abbrev Callback := List TracingServiceState → TracingServiceState → Option Err

/-- Modelled from the spec: the state of a `QuerySync`. `calls` lists the
messages the callback was invoked with, oldest first; `outcome` is the
recorded terminal outcome; `aborted` is the abort signal to the connection. -/
structure QuerySync where
  cb : Callback
  calls : List TracingServiceState
  outcome : Option (Option Err)
  aborted : Bool

/-- Modelled from the spec: `client.NewQuerySync`, a unit bound to the
callback, with no outcome yet. -/
def NewQuerySync (_ctx : Context) (cb : Callback) : QuerySync := ⟨cb, [], none, false⟩

/-- Modelled from the spec: `QuerySync.Handler`. A data message is passed to
the callback; a callback error is recorded as the terminal outcome and aborts
the stream; the end of the stream records its outcome. Once a terminal outcome
is recorded nothing further is processed. -/
def QuerySync.Handler (q : QuerySync) (ev : StreamEvent) : QuerySync :=
  match q.outcome with
  | some _ => q
  | none =>
    match ev with
    | StreamEvent.message m =>
      match q.cb q.calls m with
      | some e => { q with calls := q.calls ++ [m], outcome := some (some e), aborted := true }
      | none => { q with calls := q.calls ++ [m] }
    | StreamEvent.terminus r => { q with outcome := some r }

/-- Modelled from the spec: `QuerySync.Wait` "blocks until a terminal outcome
is recorded or the context is cancelled; returns that outcome". -/
def QuerySync.Wait (q : QuerySync) (ctx : Context) : Outcome (Option Err) :=
  match q.outcome with
  | some r => Outcome.returns r
  | none =>
    match ctx.done with
    | some e => Outcome.returns (some e)
    | none => Outcome.blocks

/-- Modelled from the spec: the error reported by a use of a released
connection; the spec fixes no text for it. -/
def errReleased : Err := "connection released"

/-- Modelled from the spec: `Connection.Invoke` sends the invocation; when it
is accepted the handler receives the scripted frames in order, otherwise the
handler receives nothing. On a nil receiver, which is what a client holds
after `Close`, there is no transport to send on: use after release "must fail
cleanly, not silently succeed", so the call returns an error and the handler
receives nothing. -/
def Connection.Invoke {σ : Type} (_ctx : Context) (c : Option Connection) (m : Method)
    (request : QueryServiceStateRequest) (handler : σ → StreamEvent → σ) (s : σ)
    (peer : InvokeScript) (w : World) : Option Err × σ × World :=
  match c with
  | none => (some errReleased, s, w)
  | some conn =>
    let w1 := w ++ [Event.invoke conn m request]
    match peer.err with
    | some e => (some e, s, w1)
    | none => (none, peer.events.foldl handler s, w1)

/-! ## The functions of `client.go` -/

/-- The result of a run of `NewClient`: how the call ends and the calls made. -/
structure NewClientRun where
  outcome : Outcome (Option Client × Option Err)
  world : World

/-- The function `NewClient`. -/
def NewClient (ctx : Context) (conn : NetConn) (cleanup : Cleanup) (peer : BindScript)
    (w : World) : NewClientRun :=
  match Connect ctx conn cleanup peer w with
  | (Except.error err, w1) =>
    -- conn.Close(); cleanup.Invoke(ctx); return nil, err
    ⟨Outcome.returns (none, some err), w1 ++ [Event.netClose conn, Event.cleanupInvoke cleanup]⟩
  | (Except.ok c, w1) =>
    let bind := NewBindSync ctx
    match Connection.Bind ctx c consumerService BindSync.Handler bind peer w1 with
    | (some err, _, w2) =>
      -- c.Close(ctx); return nil, err
      ⟨Outcome.returns (none, some err), Connection.Close ctx (some c) w2⟩
    | (none, bound, w2) =>
      let w3 := w2 ++ [Event.bindWait]
      match bound.Wait ctx with
      | Outcome.returns (Except.error err) =>
        -- c.Close(ctx); return nil, err
        ⟨Outcome.returns (none, some err), Connection.Close ctx (some c) w3⟩
      | Outcome.returns (Except.ok methods) =>
        ⟨Outcome.returns (some { conn := some c, methods := methods }, none), w3⟩
      | Outcome.blocks => ⟨Outcome.blocks, w3⟩
      | Outcome.panics => ⟨Outcome.panics, w3⟩

/-- The result of a run of `Client.Query`: how the call ends, the client
afterwards, the calls made, and the messages the callback was invoked with. -/
structure QueryRun where
  outcome : Outcome (Option Err)
  client : Client
  world : World
  calls : List TracingServiceState

/-- The method `Client.Query`. -/
def Client.Query (ctx : Context) (c : Client) (cb : Callback) (peer : InvokeScript)
    (w : World) : QueryRun :=
  match c.methods.lookup queryMethod with
  | none => ⟨Outcome.returns (some "Remote service doesn't have a query method"), c, w, []⟩
  | some m =>
    let query := NewQuerySync ctx cb
    match Connection.Invoke ctx c.conn m QueryServiceStateRequest.empty QuerySync.Handler
        query peer w with
    | (some err, q, w1) => ⟨Outcome.returns (some err), c, w1, q.calls⟩
    | (none, q, w1) => ⟨q.Wait ctx, c, w1 ++ [Event.queryWait], q.calls⟩

/-- The result of a run of `Client.Close`. -/
structure CloseRun where
  outcome : Outcome Unit
  client : Client
  world : World

/-- The method `Client.Close`. -/
def Client.Close (ctx : Context) (c : Client) (w : World) : CloseRun :=
  -- c.conn.Close(ctx); c.conn = nil
  ⟨Outcome.returns (), { c with conn := none }, Connection.Close ctx c.conn w⟩

/-- A public operation on a client, with the peer behaviour it meets. -/
inductive Op where
  /-- A call of `Query` with a context, a callback and the peer script. -/
  | query (ctx : Context) (cb : Callback) (peer : InvokeScript)
  /-- A call of `Close`. -/
  | close (ctx : Context)

/-- The client and the trace after one public operation. -/
def Op.run (op : Op) (c : Client) (w : World) : Client × World :=
  match op with
  | Op.query ctx cb peer => ((Client.Query ctx c cb peer w).client, (Client.Query ctx c cb peer w).world)
  | Op.close ctx => ((Client.Close ctx c w).client, (Client.Close ctx c w).world)

/-- The client and the trace after a sequence of public operations. -/
def runOps (ops : List Op) (c : Client) (w : World) : Client × World :=
  ops.foldl (fun s op => op.run s.1 s.2) (c, w)

/-! ## Sample values -/

/-- A sample context that never ends. -/
def ctx0 : Context := ⟨none⟩

/-- A sample socket. -/
def sock0 : NetConn := ⟨1⟩

/-- A sample cleanup action. -/
def cleanup0 : Cleanup := ⟨2⟩

/-- A sample query method descriptor. -/
def method0 : Method := ⟨7⟩

/-- A sample method table with the query method: {"QueryServiceState": m}. -/
def table0 : MethodTable := [("QueryServiceState", method0)]

/-- A sample method table without the query method. -/
def tableOther : MethodTable := [("EnableTracing", ⟨3⟩), ("ReadBuffers", ⟨4⟩)]

/-- A sample bound client over the sample socket. -/
def client0 : Client := ⟨some ⟨sock0, cleanup0⟩, table0⟩

/-- A sample bound client whose table lacks the query method. -/
def clientOther : Client := ⟨some ⟨sock0, cleanup0⟩, tableOther⟩

/-- Three sample messages M1, M2, M3. -/
def msgs3 : List TracingServiceState := [⟨11⟩, ⟨12⟩, ⟨13⟩]

/-- A sample callback that never fails. -/
def cbOk : Callback := fun _ _ => none

/-- A sample callback that fails on every message. -/
def cbFail : Callback := fun _ _ => some "stop"

/-- A sample peer that accepts an invocation and streams M1, M2, M3 and a
success terminus. -/
def stream3 : InvokeScript := ⟨none, msgs3.map StreamEvent.message ++ [StreamEvent.terminus none]⟩

/-- A sample peer that refuses the invocation. -/
def refuse0 : InvokeScript := ⟨some "write failed", []⟩

/-- A sample peer for which the bind resolves to the sample table. -/
def bindOk : BindScript := ⟨none, none, [Except.ok table0]⟩

/-- A sample peer whose bind handler receives an error. -/
def bindFail : BindScript := ⟨none, none, [Except.error "unknown service"]⟩

/-- A sample peer that accepts the bind request and then delivers nothing. -/
def bindSilent : BindScript := ⟨none, none, []⟩

/-- A sample context that ends while the bind is still unresolved. -/
def ctxEnded : Context := ⟨some "context canceled"⟩

/-! ## Theorems -/

/-- C1: a client whose method table has no entry for "QueryServiceState"
gets a non-nil error from Query, whatever the callback and the peer; nothing is
called on the connection (the trace is unchanged, so Invoke is not called) and
the callback is not invoked. -/
theorem query_unknown_method (ctx : Context) (c : Client) (cb : Callback)
    (peer : InvokeScript) (w : World)
    (h : c.methods.lookup queryMethod = none) :
    (∃ e, (Client.Query ctx c cb peer w).outcome = Outcome.returns (some e)) ∧
    (Client.Query ctx c cb peer w).world = w ∧
    (∀ conn m r, Event.invoke conn m r ∈ (Client.Query ctx c cb peer w).world →
      Event.invoke conn m r ∈ w) ∧
    (Client.Query ctx c cb peer w).calls = [] := by
  simp [Client.Query, h]

/-- C1 witness: a table with two other methods and a peer ready to stream. -/
theorem query_unknown_method_witness :
    clientOther.methods.lookup queryMethod = none ∧
    (Client.Query ctx0 clientOther cbOk stream3 []).outcome =
      Outcome.returns (some "Remote service doesn't have a query method") ∧
    (Client.Query ctx0 clientOther cbOk stream3 []).world = [] ∧
    (Client.Query ctx0 clientOther cbOk stream3 []).calls = [] := by
  have h : clientOther.methods.lookup queryMethod = none := by decide
  have t := query_unknown_method ctx0 clientOther cbOk stream3 [] h
  refine ⟨h, ?_, t.2.1, t.2.2.2⟩
  simp [Client.Query, h]

/-- A recorded bind outcome is not overwritten by later deliveries. -/
theorem BindSync.foldl_bind_recorded (l : List (Except Err MethodTable)) (b : BindSync)
    (r : Except Err MethodTable) (h : b.outcome = some r) :
    l.foldl BindSync.Handler b = b := by
  induction l with
  | nil => rfl
  | cons x xs ih => simp [List.foldl, BindSync.Handler, h, ih]

/-- A fresh BindSync records the first delivery, if there is one. -/
theorem BindSync.foldl_bind_fresh (ctx : Context) (l : List (Except Err MethodTable)) :
    (l.foldl BindSync.Handler (NewBindSync ctx)).outcome = l.head? := by
  cases l with
  | nil => rfl
  | cons x xs =>
    have h : (BindSync.Handler (NewBindSync ctx) x).outcome = some x := rfl
    simp [List.foldl, BindSync.foldl_bind_recorded xs _ x h, h]

/-- C2: every failing run of NewClient releases both resources exactly
once. First, whichever step fails with error e (the session does not open, the
bind request for "ConsumerPort" is refused, the bind handler receives e, or the
wait ends on the context's error e with nothing delivered), NewClient returns
a nil client and exactly e. Second, whenever NewClient returns a non-nil error
e, the client is nil, e is the error of one of these steps, and by then the
socket has been closed exactly once more and the cleanup invoked exactly once
more than before the call. -/
theorem newClient_failure (ctx : Context) (conn : NetConn) (cleanup : Cleanup)
    (peer : BindScript) (w : World) (cl : Option Client) (e : Err) :
    ((peer.connectErr = some e ∨
      (peer.connectErr = none ∧ peer.bindErr = some e) ∨
      (peer.connectErr = none ∧ peer.bindErr = none ∧
        peer.delivered.head? = some (Except.error e)) ∨
      (peer.connectErr = none ∧ peer.bindErr = none ∧ peer.delivered = [] ∧
        ctx.done = some e)) →
      (NewClient ctx conn cleanup peer w).outcome = Outcome.returns (none, some e)) ∧
    ((NewClient ctx conn cleanup peer w).outcome = Outcome.returns (cl, some e) →
      cl = none ∧
      (peer.connectErr = some e ∨
        (peer.connectErr = none ∧ peer.bindErr = some e) ∨
        (peer.connectErr = none ∧ peer.bindErr = none ∧
          peer.delivered.head? = some (Except.error e)) ∨
        (peer.connectErr = none ∧ peer.bindErr = none ∧ peer.delivered = [] ∧
          ctx.done = some e)) ∧
      (NewClient ctx conn cleanup peer w).world.count (Event.netClose conn) =
        w.count (Event.netClose conn) + 1 ∧
      (NewClient ctx conn cleanup peer w).world.count (Event.cleanupInvoke cleanup) =
        w.count (Event.cleanupInvoke cleanup) + 1) := by
  constructor
  · intro h
    rcases h with h | ⟨h1, h2⟩ | ⟨h1, h2, h3⟩ | ⟨h1, h2, h3, h4⟩
    · simp [NewClient, Connect, h]
    · simp [NewClient, Connect, Connection.Bind, h1, h2]
    · have hb := BindSync.foldl_bind_fresh ctx peer.delivered
      rw [h3] at hb
      simp [NewClient, Connect, Connection.Bind, BindSync.Wait, h1, h2, hb]
    · simp [NewClient, Connect, Connection.Bind, BindSync.Wait, NewBindSync, h1, h2, h3, h4]
  · intro h
    unfold NewClient Connect Connection.Bind at h ⊢
    cases hc : peer.connectErr with
    | some e1 =>
      simp [hc] at h
      obtain ⟨h1, h2⟩ := h
      subst h1 h2
      simp [List.count_append, List.count_cons]
    | none =>
      cases hbd : peer.bindErr with
      | some e1 =>
        simp [hc, hbd] at h
        obtain ⟨h1, h2⟩ := h
        subst h1 h2
        simp [Connection.Close, List.count_append, List.count_cons]
      | none =>
        have hb := BindSync.foldl_bind_fresh ctx peer.delivered
        cases hd : peer.delivered with
        | nil =>
          cases hx : ctx.done with
          | none => simp [hc, hbd, hd, BindSync.Wait, NewBindSync, hx] at h
          | some e1 =>
            simp [hc, hbd, hd, BindSync.Wait, NewBindSync, hx] at h
            obtain ⟨h1, h2⟩ := h
            subst h1 h2
            simp [BindSync.Wait, NewBindSync, hx, Connection.Close,
              List.count_append, List.count_cons]
        | cons r rest =>
          rw [hd] at hb
          cases r with
          | error e1 =>
            simp [hc, hbd, hd, BindSync.Wait] at hb h
            simp [hb] at h
            obtain ⟨h1, h2⟩ := h
            subst h1 h2
            simp [BindSync.Wait, hb, Connection.Close, List.count_append, List.count_cons]
          | ok m =>
            simp [hc, hbd, hd, BindSync.Wait] at hb h
            simp [hb] at h

/-- C2 witness: two failing runs, one in which the bind handler receives the
error "unknown service", one in which the context ends before anything is
delivered. -/
theorem newClient_failure_witness :
    ((NewClient ctx0 sock0 cleanup0 bindFail []).outcome =
        Outcome.returns (none, some "unknown service") ∧
      (NewClient ctx0 sock0 cleanup0 bindFail []).world.count (Event.netClose sock0) =
        0 + 1 ∧
      (NewClient ctx0 sock0 cleanup0 bindFail []).world.count (Event.cleanupInvoke cleanup0) =
        0 + 1) ∧
    ((NewClient ctxEnded sock0 cleanup0 bindSilent []).outcome =
        Outcome.returns (none, some "context canceled") ∧
      (NewClient ctxEnded sock0 cleanup0 bindSilent []).world.count (Event.netClose sock0) =
        0 + 1 ∧
      (NewClient ctxEnded sock0 cleanup0 bindSilent []).world.count
        (Event.cleanupInvoke cleanup0) = 0 + 1) :=
  have t1 := (newClient_failure ctx0 sock0 cleanup0 bindFail [] none "unknown service").2 rfl
  have t2 := (newClient_failure ctxEnded sock0 cleanup0 bindSilent [] none
    "context canceled").2 rfl
  ⟨⟨rfl, t1.2.2.1, t1.2.2.2⟩, ⟨rfl, t2.2.2.1, t2.2.2.2⟩⟩

/-- C3: when the session opens, the bind request for "ConsumerPort" is
accepted and the bind handler receives the table T, NewClient returns a client
and a nil error; the client stores T and holds the connection opened over the
given socket and cleanup; the only calls made are Connect, Bind for
"ConsumerPort" and the wait, so neither the socket close nor the connection
close nor the cleanup has been invoked. -/
theorem newClient_success (ctx : Context) (conn : NetConn) (cleanup : Cleanup)
    (peer : BindScript) (w : World) (T : MethodTable)
    (h1 : peer.connectErr = none) (h2 : peer.bindErr = none)
    (h3 : peer.delivered.head? = some (Except.ok T)) :
    (NewClient ctx conn cleanup peer w).outcome =
      Outcome.returns (some ⟨some ⟨conn, cleanup⟩, T⟩, none) ∧
    (NewClient ctx conn cleanup peer w).world =
      w ++ [Event.connect conn cleanup, Event.bind ⟨conn, cleanup⟩ "ConsumerPort",
        Event.bindWait] ∧
    (NewClient ctx conn cleanup peer w).world.count (Event.netClose conn) =
      w.count (Event.netClose conn) ∧
    (NewClient ctx conn cleanup peer w).world.count (Event.cleanupInvoke cleanup) =
      w.count (Event.cleanupInvoke cleanup) ∧
    (NewClient ctx conn cleanup peer w).world.count (Event.connectionClose ⟨conn, cleanup⟩) =
      w.count (Event.connectionClose ⟨conn, cleanup⟩) := by
  have hb := BindSync.foldl_bind_fresh ctx peer.delivered
  rw [h3] at hb
  simp [NewClient, Connect, Connection.Bind, BindSync.Wait, h1, h2, hb, consumerService,
    List.count_append, List.count_cons]

/-- C3 witness: the bind handler receives {"QueryServiceState": m}. -/
theorem newClient_success_witness :
    (NewClient ctx0 sock0 cleanup0 bindOk []).outcome =
      Outcome.returns (some ⟨some ⟨sock0, cleanup0⟩, table0⟩, none) ∧
    (NewClient ctx0 sock0 cleanup0 bindOk []).world.count (Event.netClose sock0) = 0 ∧
    (NewClient ctx0 sock0 cleanup0 bindOk []).world.count (Event.cleanupInvoke cleanup0) = 0 :=
  have t := newClient_success ctx0 sock0 cleanup0 bindOk [] table0 rfl rfl rfl
  ⟨t.1, t.2.2.1, t.2.2.2.1⟩

/-- C4: for every input, NewClient returns a pair (client, error) in which
the client is nil exactly when the error is non-nil; the one run that returns
nothing is the run that waits for ever, when the bind request is accepted but
nothing reaches the bind handler and the context never ends. NewClient never
panics. -/
theorem newClient_nil_iff_error (ctx : Context) (conn : NetConn) (cleanup : Cleanup)
    (peer : BindScript) (w : World) :
    (∃ cl err, (NewClient ctx conn cleanup peer w).outcome = Outcome.returns (cl, err) ∧
      (cl = none ↔ err ≠ none)) ∨
    ((NewClient ctx conn cleanup peer w).outcome = Outcome.blocks ∧
      peer.connectErr = none ∧ peer.bindErr = none ∧ peer.delivered = [] ∧
      ctx.done = none) := by
  unfold NewClient Connect Connection.Bind
  cases hc : peer.connectErr with
  | some e =>
    simp
    exact ⟨none, some e, ⟨rfl, rfl⟩, by simp⟩
  | none =>
    cases hbd : peer.bindErr with
    | some e =>
      simp
      exact ⟨none, some e, ⟨rfl, rfl⟩, by simp⟩
    | none =>
      have hb := BindSync.foldl_bind_fresh ctx peer.delivered
      cases hd : peer.delivered with
      | nil =>
        cases hx : ctx.done with
        | none => simp [BindSync.Wait, NewBindSync, hx]
        | some e =>
          simp [BindSync.Wait, NewBindSync, hx]
          exact ⟨none, some e, ⟨rfl, rfl⟩, by simp⟩
      | cons r rest =>
        rw [hd] at hb
        cases r with
        | error e =>
          simp [BindSync.Wait] at hb ⊢
          simp [hb]
          exact ⟨none, some e, ⟨rfl, rfl⟩, by simp⟩
        | ok m =>
          simp [BindSync.Wait] at hb ⊢
          simp [hb]
          exact ⟨some ⟨some ⟨conn, cleanup⟩, m⟩, none, ⟨rfl, rfl⟩, by simp⟩

/-- A recorded query outcome stops all further processing. -/
theorem QuerySync.foldl_query_recorded (l : List StreamEvent) (q : QuerySync) (r : Option Err)
    (h : q.outcome = some r) : l.foldl QuerySync.Handler q = q := by
  induction l with
  | nil => rfl
  | cons x xs ih => simp [List.foldl, QuerySync.Handler, h, ih]

/-- Messages on which the callback returns no error are all passed to it, in
order, and leave the QuerySync without an outcome. -/
theorem QuerySync.foldl_messages (msgs : List TracingServiceState) (q : QuerySync)
    (hq : q.outcome = none)
    (hcb : ∀ k (hk : k < msgs.length), q.cb (q.calls ++ msgs.take k) msgs[k] = none) :
    (msgs.map StreamEvent.message).foldl QuerySync.Handler q =
      { q with calls := q.calls ++ msgs } := by
  induction msgs generalizing q with
  | nil => simp
  | cons x xs ih =>
    have h0 : q.cb q.calls x = none := by
      have := hcb 0 (by simp)
      simpa using this
    have hstep : QuerySync.Handler q (StreamEvent.message x) =
        { q with calls := q.calls ++ [x] } := by
      simp [QuerySync.Handler, hq, h0]
    have hrec := ih { q with calls := q.calls ++ [x] } hq (by
      intro k hk
      have := hcb (k + 1) (by simpa using hk)
      simpa using this)
    simp only [List.map_cons, List.foldl_cons, hstep]
    simpa using hrec

/-- C5: for a bound client whose table maps "QueryServiceState" to m,
when the connection accepts the invocation, the run of Query is one call of
Invoke on the client's connection with m, the empty request and the handler of
the QuerySync built from the callback, followed by the wait on that QuerySync,
whose outcome is what Query returns. -/
theorem query_invokes_once (ctx : Context) (c : Client) (cb : Callback)
    (peer : InvokeScript) (w : World) (conn : Connection) (m : Method)
    (hc : c.conn = some conn) (hm : c.methods.lookup queryMethod = some m)
    (ha : peer.err = none) :
    (Client.Query ctx c cb peer w).world =
      w ++ [Event.invoke conn m ⟨[]⟩, Event.queryWait] ∧
    (∀ conn1 m1 r1, (Client.Query ctx c cb peer w).world.count (Event.invoke conn1 m1 r1) =
      w.count (Event.invoke conn1 m1 r1) +
        (if conn1 = conn ∧ m1 = m ∧ r1 = ⟨[]⟩ then 1 else 0)) ∧
    (Client.Query ctx c cb peer w).world =
      (Connection.Invoke ctx (some conn) m QueryServiceStateRequest.empty QuerySync.Handler
        (NewQuerySync ctx cb) peer w).2.2 ++ [Event.queryWait] ∧
    (Client.Query ctx c cb peer w).outcome =
      (Connection.Invoke ctx (some conn) m QueryServiceStateRequest.empty QuerySync.Handler
        (NewQuerySync ctx cb) peer w).2.1.Wait ctx ∧
    (Client.Query ctx c cb peer w).outcome =
      (peer.events.foldl QuerySync.Handler (NewQuerySync ctx cb)).Wait ctx := by
  refine ⟨?_, ?_, ?_, ?_, ?_⟩
  · simp [Client.Query, Connection.Invoke, QueryServiceStateRequest.empty, hc, hm, ha]
  · intro conn1 m1 r1
    by_cases h : conn1 = conn ∧ m1 = m ∧ r1 = ⟨[]⟩
    · obtain ⟨h1, h2, h3⟩ := h
      subst h1 h2 h3
      simp [Client.Query, Connection.Invoke, QueryServiceStateRequest.empty, hc, hm, ha,
        List.count_append, List.count_cons]
    · have hne : ¬ (Event.invoke conn m ⟨[]⟩ = Event.invoke conn1 m1 r1) := by
        intro heq
        injection heq with e1 e2 e3
        exact h ⟨e1.symm, e2.symm, e3.symm⟩
      simp [Client.Query, Connection.Invoke, QueryServiceStateRequest.empty, hc, hm, ha,
        List.count_append, List.count_cons, h, hne]
  · simp [Client.Query, Connection.Invoke, hc, hm, ha]
  · simp [Client.Query, Connection.Invoke, hc, hm, ha]
  · simp [Client.Query, Connection.Invoke, hc, hm, ha]

/-- C5 witness: the sample client and a peer streaming three messages. -/
theorem query_invokes_once_witness :
    (Client.Query ctx0 client0 cbOk stream3 []).world =
      [] ++ [Event.invoke ⟨sock0, cleanup0⟩ method0 ⟨[]⟩, Event.queryWait] ∧
    (Client.Query ctx0 client0 cbOk stream3 []).outcome =
      (stream3.events.foldl QuerySync.Handler (NewQuerySync ctx0 cbOk)).Wait ctx0 :=
  have t := query_invokes_once ctx0 client0 cbOk stream3 [] ⟨sock0, cleanup0⟩ method0
    rfl (by decide) rfl
  ⟨t.1, t.2.2.2.2⟩

/-- C7: for a bound client with the query method, when the callback
returns no error on M1..M(k-1) and returns the error e on Mk, then whatever the
transport delivers after Mk (further messages, a terminus), the callback is
invoked with exactly M1..Mk and with nothing later, and Query returns e. -/
theorem query_callback_abort (ctx : Context) (c : Client) (cb : Callback) (w : World)
    (conn : Connection) (m : Method) (before : List TracingServiceState)
    (mk : TracingServiceState) (later : List StreamEvent) (e : Err)
    (hc : c.conn = some conn) (hm : c.methods.lookup queryMethod = some m)
    (hcb : ∀ k (hk : k < before.length), cb (before.take k) before[k] = none)
    (he : cb before mk = some e) :
    (Client.Query ctx c cb
      ⟨none, before.map StreamEvent.message ++ StreamEvent.message mk :: later⟩ w).calls =
        before ++ [mk] ∧
    (Client.Query ctx c cb
      ⟨none, before.map StreamEvent.message ++ StreamEvent.message mk :: later⟩ w).outcome =
        Outcome.returns (some e) := by
  have hf : (before.map StreamEvent.message).foldl QuerySync.Handler ⟨cb, [], none, false⟩ =
      ⟨cb, before, none, false⟩ := by
    simpa using QuerySync.foldl_messages before ⟨cb, [], none, false⟩ rfl (by simpa using hcb)
  have hstep : QuerySync.Handler ⟨cb, before, none, false⟩ (StreamEvent.message mk) =
      ⟨cb, before ++ [mk], some (some e), true⟩ := by
    simp [QuerySync.Handler, he]
  have hrest := QuerySync.foldl_query_recorded later ⟨cb, before ++ [mk], some (some e), true⟩
    (some e) rfl
  simp [Client.Query, Connection.Invoke, hc, hm, List.foldl_append, hf, hstep, hrest,
    QuerySync.Wait, NewQuerySync]

/-- C7 witness: the callback fails on M1 while M2, M3 and a terminus are
still delivered. -/
theorem query_callback_abort_witness :
    (Client.Query ctx0 client0 cbFail stream3 []).calls = [] ++ [⟨11⟩] ∧
    (Client.Query ctx0 client0 cbFail stream3 []).outcome = Outcome.returns (some "stop") :=
  query_callback_abort ctx0 client0 cbFail [] ⟨sock0, cleanup0⟩ method0 [] ⟨11⟩
    [StreamEvent.message ⟨12⟩, StreamEvent.message ⟨13⟩, StreamEvent.terminus none] "stop"
    rfl (by decide) (fun _ hk => absurd hk (by simp)) rfl

/-- Query never changes the client. -/
theorem Client.Query_client (ctx : Context) (c : Client) (cb : Callback)
    (peer : InvokeScript) (w : World) : (Client.Query ctx c cb peer w).client = c := by
  unfold Client.Query Connection.Invoke
  cases c.methods.lookup queryMethod with
  | none => rfl
  | some m =>
    cases c.conn with
    | none => rfl
    | some conn =>
      cases peer.err with
      | none => rfl
      | some e => rfl

/-- Close never changes the method table. -/
theorem Client.Close_methods (ctx : Context) (c : Client) (w : World) :
    (Client.Close ctx c w).client.methods = c.methods := by
  rfl

/-- One public operation never changes the method table. -/
theorem Op.run_methods (op : Op) (c : Client) (w : World) :
    (op.run c w).1.methods = c.methods := by
  cases op with
  | query ctx cb peer => simp [Op.run, Client.Query_client]
  | close ctx => simp [Op.run, Client.Close_methods]

/-- C9: no public operation changes the method table: after a Query
(any context, callback, peer behaviour), after a Close, and after any sequence
of such operations, the client's table equals the table it had before; in
particular it equals the table NewClient stored. -/
theorem methods_never_mutated (c : Client) :
    (∀ (ctx : Context) (cb : Callback) (peer : InvokeScript) (w : World),
      (Client.Query ctx c cb peer w).client.methods = c.methods) ∧
    (∀ (ctx : Context) (w : World), (Client.Close ctx c w).client.methods = c.methods) ∧
    (∀ (ops : List Op) (w : World), (runOps ops c w).1.methods = c.methods) := by
  refine ⟨fun ctx cb peer w => by rw [Client.Query_client],
    fun ctx w => Client.Close_methods ctx c w, ?_⟩
  intro ops
  unfold runOps
  induction ops generalizing c with
  | nil => intro w; rfl
  | cons op rest ih =>
    intro w
    simp only [List.foldl_cons]
    have h := ih (op.run c w).1 (op.run c w).2
    rw [Op.run_methods] at h
    exact h

/-- C10: for a bound client with the query method, when Invoke returns
the error e, Query returns exactly e; the only call made is that one Invoke
(no wait on the QuerySync, no close of the connection, no cleanup), the
callback is not invoked, and the client, with its connection and its method
table, is unchanged. -/
theorem query_invoke_error (ctx : Context) (c : Client) (cb : Callback)
    (peer : InvokeScript) (w : World) (conn : Connection) (m : Method) (e : Err)
    (hc : c.conn = some conn) (hm : c.methods.lookup queryMethod = some m)
    (he : peer.err = some e) :
    (Client.Query ctx c cb peer w).outcome = Outcome.returns (some e) ∧
    (Client.Query ctx c cb peer w).world = w ++ [Event.invoke conn m ⟨[]⟩] ∧
    (Client.Query ctx c cb peer w).world.count Event.queryWait = w.count Event.queryWait ∧
    (Client.Query ctx c cb peer w).world.count (Event.connectionClose conn) =
      w.count (Event.connectionClose conn) ∧
    (Client.Query ctx c cb peer w).calls = [] ∧
    (Client.Query ctx c cb peer w).client = c ∧
    (Client.Query ctx c cb peer w).client.conn = some conn ∧
    (Client.Query ctx c cb peer w).client.methods = c.methods := by
  simp [Client.Query, Connection.Invoke, QueryServiceStateRequest.empty, NewQuerySync, hc, hm,
    he, List.count_append, List.count_cons]

/-- C10 witness: the peer refuses the invocation with "write failed". -/
theorem query_invoke_error_witness :
    (Client.Query ctx0 client0 cbOk refuse0 []).outcome =
      Outcome.returns (some "write failed") ∧
    (Client.Query ctx0 client0 cbOk refuse0 []).world =
      [] ++ [Event.invoke ⟨sock0, cleanup0⟩ method0 ⟨[]⟩] ∧
    (Client.Query ctx0 client0 cbOk refuse0 []).client = client0 :=
  have t := query_invoke_error ctx0 client0 cbOk refuse0 [] ⟨sock0, cleanup0⟩ method0
    "write failed" rfl (by decide) rfl
  ⟨t.1, t.2.1, t.2.2.2.2.2.1⟩

end Perfetto
